import Mathlib

/-
Verification of the gcpbuildpack shared runtime: the structured error and
output-reporting mechanism (pkg/gcpbuildpack/builderoutput.go), the
command-execution attribution contract (pkg/gcpbuildpack/exec), and the
cache-validation protocol (pkg/python/python.go).

Go strings are byte sequences; we model them as lists of byte values
(`List Nat`).  `len`, slicing and concatenation on Go strings are byte
operations and correspond to `List.length`, `take`/`drop` and `++`.
The development covers the ASCII fragment: every concrete string appearing
in the repository's code and tests is ASCII.
-/

namespace Buildpacks

/-- GoStr models a Go string as its byte sequence. -/
abbrev GoStr := List Nat

/-- goStr converts a Lean string literal (ASCII) to its byte sequence. -/
def goStr (s : String) : GoStr := s.data.map Char.toNat

/-- isSpaceByte is the whitespace predicate of Go strings.TrimSpace on the
Latin-1 range (unicode.IsSpace): space, tab, newline, vertical tab, form
feed, carriage return, next-line and no-break space. -/
def isSpaceByte (c : Nat) : Bool :=
  c == 32 || c == 9 || c == 10 || c == 11 || c == 12 || c == 13 || c == 133 || c == 160

/-- goTrimSpace models strings.TrimSpace: remove leading and trailing
whitespace. -/
def goTrimSpace (s : GoStr) : GoStr :=
  ((s.dropWhile isSpaceByte).reverse.dropWhile isSpaceByte).reverse

/-- The three-byte ellipsis marker used by the truncation helpers
(the Go literal written in keepTail and keepHead). -/
def ellipsis : GoStr := goStr "..."

/-- keepTail from builderoutput.go: trim whitespace, then if the message is
longer than maxMessageBytes keep the tail, budgeting three bytes for a
leading ellipsis.  maxMessageBytes is a package variable in Go (default
3000, overridden in tests); the model passes it explicitly. -/
def keepTail (maxMessageBytes : Nat) (message : GoStr) : GoStr :=
  let message := goTrimSpace message
  if message.length ≤ maxMessageBytes then message
  else ellipsis ++ message.drop (message.length - maxMessageBytes + 3)

/-- keepHead from builderoutput.go: trim whitespace, then if the message is
longer than maxMessageBytes keep the head, budgeting three bytes for a
trailing ellipsis. -/
def keepHead (maxMessageBytes : Nat) (message : GoStr) : GoStr :=
  let message := goTrimSpace message
  if message.length ≤ maxMessageBytes then message
  else message.take (maxMessageBytes - 3) ++ ellipsis

-- Test vectors from TestKeepTail / TestKeepHead (builderoutput_test.go).
example : keepTail 8 (goStr "") = goStr "" := by decide
example : keepTail 8 (goStr "123") = goStr "123" := by decide
example : keepTail 8 (goStr "12345678901234567890") = goStr "...67890" := by decide
example : keepTail 8 (goStr "12345678") = goStr "12345678" := by decide
example : keepTail 8 (goStr "123456789") = goStr "...56789" := by decide
example : keepHead 8 (goStr "") = goStr "" := by decide
example : keepHead 8 (goStr "123") = goStr "123" := by decide
example : keepHead 8 (goStr "12345678901234567890") = goStr "12345..." := by decide
example : keepHead 8 (goStr "12345678") = goStr "12345678" := by decide
example : keepHead 8 (goStr "123456789") = goStr "12345..." := by decide

/-! SHA-256, used by generateErrorID (crypto/sha256 in Go).  Words are
naturals reduced modulo 2 to the 32. -/

/-- pow32 is 2 to the 32, the word modulus of SHA-256 arithmetic. -/
def pow32 : Nat := 4294967296

/-- rotr32 is a 32-bit right rotation. -/
def rotr32 (n x : Nat) : Nat := ((x >>> n) ||| (x <<< (32 - n))) % pow32

/-- sha256K holds the 64 round constants of SHA-256. -/
def sha256K : List Nat :=
  [1116352408, 1899447441, 3049323471, 3921009573, 961987163,
   1508970993, 2453635748, 2870763221, 3624381080, 310598401,
   607225278, 1426881987, 1925078388, 2162078206, 2614888103,
   3248222580, 3835390401, 4022224774, 264347078, 604807628,
   770255983, 1249150122, 1555081692, 1996064986, 2554220882,
   2821834349, 2952996808, 3210313671, 3336571891, 3584528711,
   113926993, 338241895, 666307205, 773529912, 1294757372,
   1396182291, 1695183700, 1986661051, 2177026350, 2456956037,
   2730485921, 2820302411, 3259730800, 3345764771, 3516065817,
   3600352804, 4094571909, 275423344, 430227734, 506948616,
   659060556, 883997877, 958139571, 1322822218, 1537002063,
   1747873779, 1955562222, 2024104815, 2227730452, 2361852424,
   2428436474, 2756734187, 3204031479, 3329325298]

/-- sha256H0 is the initial hash state of SHA-256. -/
def sha256H0 : List Nat :=
  [1779033703, 3144134277, 1013904242, 2773480762,
   1359893119, 2600822924, 528734635, 1541459225]

/-- sha256Pad appends the 0x80 byte, zero padding and the 64-bit big-endian
bit length, reaching a multiple of 64 bytes. -/
def sha256Pad (msg : List Nat) : List Nat :=
  let L := msg.length
  let k := (119 - L % 64) % 64
  msg ++ [128] ++ List.replicate k 0 ++ (List.range 8).map (fun i => ((8 * L) >>> (8 * (7 - i))) % 256)

/-- toBlocks splits a byte list into 64-byte blocks. -/
def toBlocks (l : List Nat) : List (List Nat) :=
  if h : l = [] then [] else l.take 64 :: toBlocks (l.drop 64)
termination_by l.length
decreasing_by
  simp only [List.length_drop]
  have hp : 0 < l.length := List.length_pos.mpr h
  omega

/-- beWord reads a big-endian 32-bit word at byte offset i of a block. -/
def beWord (block : List Nat) (i : Nat) : Nat :=
  block.getD i 0 * 16777216 + block.getD (i + 1) 0 * 65536 +
    block.getD (i + 2) 0 * 256 + block.getD (i + 3) 0

/-- sha256Ext computes the next message-schedule word from the last 16. -/
def sha256Ext (w : List Nat) : Nat :=
  let n := w.length
  let x := w.getD (n - 15) 0
  let y := w.getD (n - 2) 0
  let s0 := rotr32 7 x ^^^ rotr32 18 x ^^^ (x >>> 3)
  let s1 := rotr32 17 y ^^^ rotr32 19 y ^^^ (y >>> 10)
  (w.getD (n - 16) 0 + s0 + w.getD (n - 7) 0 + s1) % pow32

/-- sha256Schedule expands a 64-byte block into the 64-word schedule. -/
def sha256Schedule (block : List Nat) : List Nat :=
  let w0 := (List.range 16).map (fun i => beWord block (4 * i))
  (List.range 48).foldl (fun w _ => w ++ [sha256Ext w]) w0

/-- sha256Round is one round of the SHA-256 compression function on the
eight-word working state. -/
def sha256Round (st : List Nat) (kw : Nat × Nat) : List Nat :=
  match st with
  | [a, b, c, d, e, f, g, hh] =>
    let s1 := rotr32 6 e ^^^ rotr32 11 e ^^^ rotr32 25 e
    let ch := (e &&& f) ^^^ ((pow32 - 1 - e % pow32) &&& g)
    let t1 := (hh + s1 + ch + kw.1 + kw.2) % pow32
    let s0 := rotr32 2 a ^^^ rotr32 13 a ^^^ rotr32 22 a
    let maj := (a &&& b) ^^^ (a &&& c) ^^^ (b &&& c)
    let t2 := (s0 + maj) % pow32
    [(t1 + t2) % pow32, a, b, c, (d + t1) % pow32, e, f, g]
  | _ => st

/-- sha256Block compresses one block into the running hash state. -/
def sha256Block (st : List Nat) (block : List Nat) : List Nat :=
  let w := sha256Schedule block
  let f := (sha256K.zip w).foldl sha256Round st
  (st.zip f).map (fun p => (p.1 + p.2) % pow32)

/-- sha256 maps a byte list to its 32-byte SHA-256 digest. -/
def sha256 (msg : List Nat) : List Nat :=
  let hs := (toBlocks (sha256Pad msg)).foldl sha256Block sha256H0
  (hs.map (fun w => (List.range 4).map (fun i => (w >>> (8 * (3 - i))) % 256))).flatten

/-- hexDigit is the lowercase ASCII hex digit of a value below 16. -/
def hexDigit (n : Nat) : Nat := if n < 10 then 48 + n else 87 + n

/-- hexOfBytes is the lowercase hex encoding of a byte list, as produced by
the percent-x format verb in Go. -/
def hexOfBytes (bs : List Nat) : GoStr :=
  bs.foldr (fun b acc => hexDigit (b / 16) :: hexDigit (b % 16) :: acc) []

/-- toLowerByte lowers an ASCII letter byte (strings.ToLower on ASCII). -/
def toLowerByte (c : Nat) : Nat := if 65 ≤ c ∧ c ≤ 90 then c + 32 else c

/-- errorIDLength is the length of the human-friendly error identifier. -/
def errorIDLength : Nat := 8

/-- ErrorID is a short error code passed to the user for supportability. -/
abbrev ErrorID := GoStr

/-- generateErrorID from builderoutput.go: hash the concatenation of the
parts with SHA-256, hex-encode, lowercase and keep the first
errorIDLength characters. -/
def generateErrorID (parts : List GoStr) : ErrorID :=
  ((hexOfBytes (sha256 parts.flatten)).map toLowerByte).take errorIDLength

/-! The structured error data model (builderoutput.go). -/

/-- Modelled from the spec: the Status enumeration lives in the repository's
status.go, which is absent from the sources; only the constructors the
sources and spec use are modelled, with StatusOk as the Go zero value,
StatusInternal the runtime-attributed kind and StatusUnknown the
caller-attributed kind. -/
inductive Status where
  | ok
  | internal
  | unknown
deriving DecidableEq, Repr

/-- Error is the gcpbuildpack structured error (builderoutput.go). -/
structure Error where
  buildpackID : GoStr
  buildpackVersion : GoStr
  errorType : Status
  status : Status
  id : ErrorID
  message : GoStr
deriving DecidableEq, Repr

/-- builderStat is one per-buildpack timing entry of the output document. -/
structure builderStat where
  buildpackID : GoStr
  buildpackVersion : GoStr
  durationMs : Nat
  userDurationMs : Nat
deriving DecidableEq, Repr

/-- builderOutput is the persisted output document of builderoutput.go:
the most recent error plus the appended statistics entries. -/
structure builderOutput where
  error : Error
  stats : List builderStat
deriving DecidableEq, Repr

/-- Errorf constructs an Error: both kind fields are the given status and
the identifier is generateErrorID of the formatted message.  The Go
function formats the message with Sprintf; the model receives the
formatted message. -/
def Errorf (status : Status) (msg : GoStr) : Error :=
  { buildpackID := [], buildpackVersion := [], errorType := status, status := status,
    id := generateErrorID [msg], message := msg }

/-- InternalErrorf constructs an Error with status StatusInternal. -/
def InternalErrorf (msg : GoStr) : Error := Errorf .internal msg

/-- UserErrorf constructs an Error with status StatusUnknown. -/
def UserErrorf (msg : GoStr) : Error := Errorf .unknown msg

/-- BuildpackInfo carries the buildpack identity stamped on the outputs. -/
structure BuildpackInfo where
  id : GoStr
  version : GoStr
deriving DecidableEq, Repr

/-- SaveEffect is the observable effect of one save call: the warnings it
logged and the document it wrote, if any. -/
structure SaveEffect where
  warnLog : List GoStr
  written : Option builderOutput
deriving DecidableEq, Repr

/-- emptyBuilderOutput is the Go zero value of builderOutput. -/
def emptyBuilderOutput : builderOutput :=
  { error := { buildpackID := [], buildpackVersion := [], errorType := .ok, status := .ok,
               id := [], message := [] },
    stats := [] }

/-- saveErrorOutputRun models saveErrorOutput of builderoutput.go.  The
filesystem steps are oracles: marshalOk, mkdirOk, writeOk and mvOk tell
whether json.Marshal, os.MkdirAll, ioutil.WriteFile and the mv -f exec
succeed.  The result is in Except so that an escalated fatal error would
be visible; the source only warns and returns on every failure. -/
def saveErrorOutputRun (outputDir : GoStr) (marshalOk mkdirOk writeOk mvOk : Bool)
    (info : BuildpackInfo) (maxMessageBytes : Nat) (be : Error) :
    Except Error SaveEffect :=
  if outputDir = [] then .ok { warnLog := [], written := none }
  else
    let be := if maxMessageBytes < be.message.length
              then { be with message := keepTail maxMessageBytes be.message } else be
    let be := { be with buildpackID := info.id, buildpackVersion := info.version }
    let bo : builderOutput := { error := be, stats := [] }
    if marshalOk = false then
      .ok { warnLog := [goStr "Failed to marshal, skipping structured error output"], written := none }
    else if mkdirOk = false then
      .ok { warnLog := [goStr "Failed to create dir, skipping structured error output"], written := none }
    else if writeOk = false then
      .ok { warnLog := [goStr "Failed to write, skipping structured error output"], written := none }
    else if mvOk = false then
      .ok { warnLog := [goStr "Failed to move, skipping structured error output"], written := none }
    else .ok { warnLog := [], written := some bo }

/-- saveSuccessOutputRun models saveSuccessOutput of builderoutput.go.
fileExists, readOk and parsed model ctx.FileExists, ioutil.ReadFile and
json.Unmarshal on the existing document; marshalOk, mkdirOk and writeOk
are the write-side oracles.  durationMs and userDurationMs are the
millisecond values of the two durations. -/
def saveSuccessOutputRun (outputDir : GoStr) (fileExists readOk : Bool)
    (parsed : Option builderOutput) (marshalOk mkdirOk writeOk : Bool)
    (info : BuildpackInfo) (durationMs userDurationMs : Nat) :
    Except Error SaveEffect :=
  if outputDir = [] then .ok { warnLog := [], written := none }
  else if fileExists && !readOk then
    .ok { warnLog := [goStr "Failed to read, skipping statistics"], written := none }
  else if fileExists && readOk && parsed.isNone then
    .ok { warnLog := [goStr "Failed to unmarshal, skipping statistics"], written := none }
  else
    let bo := if fileExists then parsed.getD emptyBuilderOutput else emptyBuilderOutput
    let bo := { bo with stats := bo.stats ++
      [{ buildpackID := info.id, buildpackVersion := info.version,
         durationMs := durationMs, userDurationMs := userDurationMs }] }
    if marshalOk = false then
      .ok { warnLog := [goStr "Failed to marshal stats, skipping statistics"], written := none }
    else if mkdirOk = false then
      .ok { warnLog := [goStr "Failed to create dir, skipping statistics"], written := none }
    else if writeOk = false then
      .ok { warnLog := [goStr "Failed to write, skipping statistics"], written := none }
    else .ok { warnLog := [], written := some bo }

/-! The cache-validation protocol of pkg/python/python.go. -/

/-- expirationTime is the retention window of python.go: one day, in the
nanosecond ticks of Go time.Duration. -/
def expirationTime : Nat := 24 * 60 * 60 * 1000000000

/-- LayerMeta is the persisted layer metadata record; GetMetadata returns
the empty string for an absent key, so absent keys are empty strings. -/
structure LayerMeta where
  dependencyHash : GoStr
  pythonVersion : GoStr
  expiryTimestamp : GoStr
deriving DecidableEq, Repr

/-- cacheExpired models cacheExpired of python.go.  Instants are naturals
(Go time on a fixed epoch; the Go zero time is 0 and time.After is the
strict order).  now1 and now2 are the values of the two successive
time.Now calls.  parse is the time.Parse oracle for the RFC3339Nano
layout, returning none exactly when Go returns a parse error, in which
case the Go assignment leaves t at the zero time. -/
def cacheExpired (parse : GoStr → Option Nat) (now1 now2 : Nat) (meta : LayerMeta) : Bool :=
  let t := if meta.expiryTimestamp = [] then now1
           else match parse meta.expiryTimestamp with
                | some u => u
                | none => 0
  !(now2 < t)

/-- checkCache models checkCache of python.go.  currentVersion is the
detected python version, hashResult the outcome of cache.Hash (the cache
package is an external collaborator here, so its result is an oracle),
format the RFC3339Nano rendering used when stamping the new expiry, and
now3 the time.Now of the expiry stamp.  On a hit it returns true and
leaves the metadata untouched (none); on a miss it returns false paired
with the metadata written after clearing the layer. -/
def checkCache (parse : GoStr → Option Nat) (format : Nat → GoStr) (now1 now2 now3 : Nat)
    (currentVersion : GoStr) (hashResult : Except GoStr GoStr) (meta : LayerMeta) :
    Except GoStr (Bool × Option LayerMeta) :=
  match hashResult with
  | .error e => .error (goStr "computing dependency hash: " ++ e)
  | .ok currentDependencyHash =>
    let expired := cacheExpired parse now1 now2 meta
    if currentDependencyHash = meta.dependencyHash ∧ expired = false then
      .ok (true, none)
    else
      .ok (false, some { dependencyHash := currentDependencyHash,
                         pythonVersion := currentVersion,
                         expiryTimestamp := format (now3 + expirationTime) })

/-- InstallOutcome is the control-flow outcome of InstallRequirements:
clear-and-return on an empty requirements list, error propagation from
checkCache, skip on a cache hit, or the pip install path on a miss. -/
inductive InstallOutcome where
  | clearedEmpty
  | checkErr (e : GoStr)
  | cacheHitSkip
  | installed
deriving DecidableEq, Repr

/-- installRequirementsOutcome models the dispatch of InstallRequirements
in python.go on the checkCache result: which of the four paths runs. -/
def installRequirementsOutcome (reqs : List GoStr) (cacheResult : Except GoStr Bool) :
    InstallOutcome :=
  if reqs = [] then .clearedEmpty
  else match cacheResult with
    | .error e => .checkErr e
    | .ok true => .cacheHitSkip
    | .ok false => .installed

/-! Modelled from the spec: the command executor.  The repository's exec.go
is absent from the sources (only exec_test.go is present); the model below
follows section 4.1 of the spec, pinned by the expectations of
exec_test.go: the four attribution modes are independent axes, a failure
yields a structured error whose attribution is caller-caused exactly when
failure-attribution is selected, and an empty command line is rejected
with the messages asserted by TestExecWithErr. -/

/-- ExecResult from section 3 of the spec: exit code and the three captured
streams. -/
structure ExecResult where
  exitCode : Nat
  stdout : GoStr
  stderr : GoStr
  combined : GoStr
deriving DecidableEq, Repr

/-- execParams is the accumulated execution configuration. -/
structure execParams where
  cmd : List GoStr
  env : List GoStr
  workDir : Option GoStr
  userTiming : Bool
  userFailure : Bool
  producer : ExecResult → GoStr

/-- Modelled from the spec: ExecOption is the closed set of recognized
execution options of sections 4.1 and 6 (exec.go absent): environment
overrides, working directory, the attribution options and the
message-producer selections. -/
inductive ExecOption where
  | withEnv (es : List GoStr)
  | withWorkDir (d : GoStr)
  | withUserAttribution
  | withUserTimingAttribution
  | withUserFailureAttribution
  | withMessageProducer (f : ExecResult → GoStr)
  | withStdoutTail
  | withStderrTail
  | withCombinedTail
  | withStdoutHead
  | withStderrHead
  | withCombinedHead

/-- applyOpt interprets one option on the parameters; later environment
entries are appended so that later overrides win. -/
def applyOpt (maxMessageBytes : Nat) (p : execParams) : ExecOption → execParams
  | .withEnv es => { p with env := p.env ++ es }
  | .withWorkDir d => { p with workDir := some d }
  | .withUserAttribution => { p with userTiming := true, userFailure := true }
  | .withUserTimingAttribution => { p with userTiming := true }
  | .withUserFailureAttribution => { p with userFailure := true }
  | .withMessageProducer f => { p with producer := f }
  | .withStdoutTail => { p with producer := fun r => keepTail maxMessageBytes r.stdout }
  | .withStderrTail => { p with producer := fun r => keepTail maxMessageBytes r.stderr }
  | .withCombinedTail => { p with producer := fun r => keepTail maxMessageBytes r.combined }
  | .withStdoutHead => { p with producer := fun r => keepHead maxMessageBytes r.stdout }
  | .withStderrHead => { p with producer := fun r => keepHead maxMessageBytes r.stderr }
  | .withCombinedHead => { p with producer := fun r => keepHead maxMessageBytes r.combined }

/-- defaultExecParams: no attribution, and the default message producer is
the tail-truncated combined stream (section 4.1 of the spec). -/
def defaultExecParams (maxMessageBytes : Nat) (cmd : List GoStr) : execParams :=
  { cmd := cmd, env := [], workDir := none, userTiming := false, userFailure := false,
    producer := fun r => keepTail maxMessageBytes r.combined }

/-- execError builds the structured error for a failed execution: the
attribution is caller-caused (StatusUnknown) exactly when the
failure-attribution axis is selected, else runtime-caused
(StatusInternal). -/
def execError (userFailure : Bool) (msg : GoStr) : Error :=
  Errorf (if userFailure then Status.unknown else Status.internal) msg

/-- Modelled from the spec: ExecWithErr (exec.go absent).  run is the
external-process oracle: an error value on spawn failure or the captured
ExecResult.  An empty command line or an all-blank command line is
rejected before spawning, with no ExecResult and the messages asserted
by TestExecWithErr; exec_test.go pins these rejections to the same
attribution rule as every other failure (StatusInternal under the
default mode).  A non-zero exit returns both the result and an error
whose message comes from the configured producer. -/
def ExecWithErr (maxMessageBytes : Nat) (run : Except GoStr ExecResult)
    (cmd : List GoStr) (opts : List ExecOption) : Option ExecResult × Option Error :=
  let p := opts.foldl (applyOpt maxMessageBytes) (defaultExecParams maxMessageBytes cmd)
  if cmd = [] then
    (none, some (execError p.userFailure (goStr "no command provided")))
  else if ∀ a ∈ cmd, goTrimSpace a = [] then
    (none, some (execError p.userFailure (goStr "empty command provided")))
  else
    match run with
    | .error e => (none, some (execError p.userFailure e))
    | .ok r =>
      if r.exitCode ≠ 0 then (some r, some (execError p.userFailure (p.producer r)))
      else (some r, none)

/-! Modelled from the spec: the warning-appending step of saveSuccessOutput.
The version of builderoutput.go in the sources predates the warnings
support its tests exercise (its builderOutput has no warnings field),
so the step is modelled from sections 4.2 and 8 of the spec, with the
byte arithmetic fixed by the boundary cases of
TestSaveBuilderSuccessOutput.  warningsSize is the serialized JSON size
of the warnings array; the budget B is the global message-size budget
left for that array. -/

/-- warningsSize is the serialized size of the warnings list: two brackets
for the empty array, else each warning costs its bytes plus quotes and a
separator. -/
def warningsSize (ws : List GoStr) : Nat :=
  match ws with
  | [] => 2
  | _ => 1 + (ws.map (fun w => w.length + 3)).sum

/-- Modelled from the spec: appendWarningsAux appends warnings while the
cumulative serialized size stays within the budget; the first warning
that does not fit is truncated with a trailing ellipsis when at least
one character remains after the truncation overhead, otherwise it is
dropped, and no later warning is processed. -/
def appendWarningsAux (B : Nat) (acc : List GoStr) : List GoStr → List GoStr
  | [] => acc
  | w :: rest =>
    if warningsSize (acc ++ [w]) ≤ B then appendWarningsAux B (acc ++ [w]) rest
    else
      let room := B - warningsSize acc - 6
      if 1 ≤ room then acc ++ [w.take room ++ ellipsis] else acc

/-- saveSuccessWarnings is the warning list persisted by the success path:
the existing warnings followed by as many of the accumulated warnings
as the budget admits. -/
def saveSuccessWarnings (B : Nat) (existing ws : List GoStr) : List GoStr :=
  appendWarningsAux B existing ws

/-! The concurrent-writers model for the output document.  saveErrorOutput
writes the whole document to a uniquely named temporary file
(output-<random>) in the output directory and then renames it over the
canonical path with mv -f.  The model runs two writers, each a sequence
of partial appends to its own temporary file followed by one atomic
rename; a schedule interleaves their steps arbitrarily.  Rename
atomicity is the modelled operating-system primitive: one step replaces
the canonical content with the full temporary content. -/

/-- WSys is the shared filesystem state of the two racing writers: each
writer's remaining chunks, rename flag and temporary-file content, plus
the canonical output file. -/
structure WSys where
  rem1 : List GoStr
  ren1 : Bool
  t1 : GoStr
  rem2 : List GoStr
  ren2 : Bool
  t2 : GoStr
  out : Option GoStr
deriving DecidableEq, Repr

/-- wInit is the initial state: nothing written, canonical file absent. -/
def wInit (chunks1 chunks2 : List GoStr) : WSys :=
  { rem1 := chunks1, ren1 := false, t1 := [],
    rem2 := chunks2, ren2 := false, t2 := [], out := none }

/-- wStep runs one step of the scheduled writer: append the next chunk to
its own temporary file, or, when all chunks are written, atomically
rename the temporary file over the canonical path. -/
def wStep (s : WSys) (who : Bool) : WSys :=
  if who then
    match s.rem1, s.ren1 with
    | c :: cs, _ => { s with rem1 := cs, t1 := s.t1 ++ c }
    | [], false => { s with ren1 := true, out := some s.t1 }
    | [], true => s
  else
    match s.rem2, s.ren2 with
    | c :: cs, _ => { s with rem2 := cs, t2 := s.t2 ++ c }
    | [], false => { s with ren2 := true, out := some s.t2 }
    | [], true => s

/-- wRun executes a schedule, an arbitrary interleaving of the two
writers. -/
def wRun (s : WSys) (sched : List Bool) : WSys :=
  sched.foldl wStep s

/-- warningsCost is the summed per-warning serialization cost. -/
def warningsCost (ws : List GoStr) : Nat := (ws.map (fun w => w.length + 3)).sum

/-- wInv is the inductive invariant of the two-writer race: each temporary
file holds the already-written chunks of its writer, the canonical file
is absent or one writer's complete content, and it is present as soon as
either writer has renamed. -/
def wInv (c1 c2 : List GoStr) (s : WSys) : Prop :=
  s.t1 ++ s.rem1.flatten = c1.flatten ∧
  s.t2 ++ s.rem2.flatten = c2.flatten ∧
  (s.out = none ∨ s.out = some c1.flatten ∨ s.out = some c2.flatten) ∧
  ((s.ren1 = true ∨ s.ren2 = true) → s.out ≠ none)

-- keepTail on the message of TestSaveErrorOutput (maxMessageBytes 8).
example :
    keepTail 8 (goStr "This is a long message that will be truncated.") = goStr "...ated." := by
  decide

-- saveSuccessWarnings on scaled boundary cases: a warning that partly fits
-- is truncated with the ellipsis and processing stops; a warning whose
-- remaining room is only the ellipsis is dropped entirely.
example :
    saveSuccessWarnings 20 [] [goStr "abcde", goStr "0123456789AB", goStr "zz"] =
      [goStr "abcde", goStr "01234..."] := by decide
example : saveSuccessWarnings 15 [] [goStr "abcde", goStr "0123456789AB"] = [goStr "abcde"] := by
  decide

/-! Claim theorems. -/

/-- Length of the ellipsis marker. -/
theorem ellipsis_length : ellipsis.length = 3 := rfl

/-- C1 counterexample: keepTail and keepHead first trim whitespace, so a
message of length at most maxMessageBytes that carries surrounding
whitespace is not returned unchanged, and a long message consisting
mostly of whitespace is not truncated to length maxMessageBytes. -/
theorem claim_C1_cex :
    ((goStr " a").length ≤ 8 ∧
      keepTail 8 (goStr " a") ≠ goStr " a" ∧ keepHead 8 (goStr " a") ≠ goStr " a") ∧
    (8 < (goStr "a         ").length ∧ (keepTail 8 (goStr "a         ")).length ≠ 8) := by
  decide

/-- C1 (amended): keepTail and keepHead act on the whitespace-trimmed
message T.  For maxMessageBytes at least three: when T is longer than
maxMessageBytes, keepTail has length exactly maxMessageBytes and its part
after the ellipsis is an untruncated suffix of T, and keepHead has length
exactly maxMessageBytes and its part before the ellipsis is an
untruncated prefix of T; when T is at most maxMessageBytes long, both
return T, which is M itself whenever M carries no surrounding
whitespace. -/
theorem claim_C1 (maxB : Nat) (M : GoStr) (h3 : 3 ≤ maxB) :
    (maxB < (goTrimSpace M).length →
      (keepTail maxB M).length = maxB ∧
      (∃ s, keepTail maxB M = ellipsis ++ s ∧ ∃ p, goTrimSpace M = p ++ s) ∧
      (keepHead maxB M).length = maxB ∧
      (∃ q, keepHead maxB M = q ++ ellipsis ∧ ∃ s, goTrimSpace M = q ++ s)) ∧
    ((goTrimSpace M).length ≤ maxB →
      keepTail maxB M = goTrimSpace M ∧ keepHead maxB M = goTrimSpace M) := by
  constructor
  · intro hlt
    have hnot : ¬ (goTrimSpace M).length ≤ maxB := by omega
    refine ⟨?_, ⟨?_, ?_, ?_⟩, ?_, ?_, ?_, ?_⟩
    · simp only [keepTail, if_neg hnot, List.length_append, List.length_drop, ellipsis_length]
      omega
    · exact (goTrimSpace M).drop ((goTrimSpace M).length - maxB + 3)
    · simp only [keepTail, if_neg hnot]
    · exact ⟨(goTrimSpace M).take ((goTrimSpace M).length - maxB + 3),
        (List.take_append_drop _ _).symm⟩
    · simp only [keepHead, if_neg hnot, List.length_append, List.length_take, ellipsis_length]
      omega
    · exact (goTrimSpace M).take (maxB - 3)
    · simp only [keepHead, if_neg hnot]
    · exact ⟨(goTrimSpace M).drop (maxB - 3), (List.take_append_drop _ _).symm⟩
  · intro hle
    constructor <;> simp only [keepTail, keepHead, if_pos hle]

/-- C1 witness: evaluating the amended claim at concrete messages. -/
theorem claim_C1_witness :
    (keepTail 8 (goStr " 0123456789x ")).length = 8 ∧
    keepHead 8 (goStr " 012 ") = goTrimSpace (goStr " 012 ") :=
  ⟨((claim_C1 8 (goStr " 0123456789x ") (by decide)).1 (by decide)).1,
   ((claim_C1 8 (goStr " 012 ") (by decide)).2 (by decide)).2⟩

/-- C2: Errorf computes the identifier from the full message at
construction; saveErrorOutput truncates only the persisted message with
keepTail when it exceeds maxMessageBytes and keeps the identifier, so the
persisted document carries generateErrorID of the original full message
next to the tail-truncated message. -/
theorem claim_C2 (dir : GoStr) (hdir : dir ≠ []) (info : BuildpackInfo) (maxB : Nat)
    (status : Status) (msg : GoStr) (hlong : maxB < msg.length) :
    (Errorf status msg).id = generateErrorID [msg] ∧
    saveErrorOutputRun dir true true true true info maxB (Errorf status msg) =
      .ok { warnLog := [],
            written := some { error := { buildpackID := info.id,
                                         buildpackVersion := info.version,
                                         errorType := status, status := status,
                                         id := generateErrorID [msg],
                                         message := keepTail maxB msg },
                              stats := [] } } := by
  refine ⟨rfl, ?_⟩
  simp [saveErrorOutputRun, hdir, Errorf, hlong]

/-- C2 witness: a ten-byte message against a four-byte budget. -/
theorem claim_C2_witness :
    (goStr "d" ≠ [] ∧ 4 < (goStr "0123456789").length) ∧
    ((Errorf .internal (goStr "0123456789")).id = generateErrorID [goStr "0123456789"] ∧
     saveErrorOutputRun (goStr "d") true true true true
        { id := goStr "id", version := goStr "version" } 4
        (Errorf .internal (goStr "0123456789")) =
       .ok { warnLog := [],
             written := some { error := { buildpackID := goStr "id",
                                          buildpackVersion := goStr "version",
                                          errorType := .internal, status := .internal,
                                          id := generateErrorID [goStr "0123456789"],
                                          message := keepTail 4 (goStr "0123456789") },
                               stats := [] } }) :=
  ⟨⟨by decide, by decide⟩,
   claim_C2 (goStr "d") (by decide) { id := goStr "id", version := goStr "version" } 4
     .internal (goStr "0123456789") (by decide)⟩

/-- C4: a stored expiry timestamp strictly in the past makes cacheExpired
true, so checkCache reports a miss even when the stored dependency hash
equals the current fingerprint, and InstallRequirements takes the install
path rather than the skip path. -/
theorem claim_C4 (parse : GoStr → Option Nat) (format : Nat → GoStr)
    (now1 now2 now3 : Nat) (v h : GoStr) (meta : LayerMeta) (t : Nat)
    (hne : meta.expiryTimestamp ≠ []) (hp : parse meta.expiryTimestamp = some t)
    (hpast : t < now2) (hmatch : meta.dependencyHash = h)
    (reqs : List GoStr) (hreqs : reqs ≠ []) :
    cacheExpired parse now1 now2 meta = true ∧
    checkCache parse format now1 now2 now3 v (.ok h) meta =
      .ok (false, some { dependencyHash := h, pythonVersion := v,
                         expiryTimestamp := format (now3 + expirationTime) }) ∧
    installRequirementsOutcome reqs (.ok false) = .installed := by
  have hexp : cacheExpired parse now1 now2 meta = true := by
    simp only [cacheExpired, if_neg hne, hp]
    simp only [Bool.not_eq_true', decide_eq_false_iff_not, Nat.not_lt]
    omega
  refine ⟨hexp, ?_, ?_⟩
  · simp [checkCache, hexp, hmatch]
  · simp [installRequirementsOutcome, hreqs]

/-- C4 witness: expiry five, second clock ten, matching hashes. -/
theorem claim_C4_witness :
    cacheExpired (fun _ => some 5) 1 10 { dependencyHash := [1], pythonVersion := [], expiryTimestamp := [50] } = true ∧
    checkCache (fun _ => some 5) (fun _ => [9]) 1 10 10 [] (.ok [1])
        { dependencyHash := [1], pythonVersion := [], expiryTimestamp := [50] } =
      .ok (false, some { dependencyHash := [1], pythonVersion := [],
                         expiryTimestamp := [9] }) ∧
    installRequirementsOutcome [goStr "requirements.txt"] (.ok false) = .installed :=
  claim_C4 (fun _ => some 5) (fun _ => [9]) 1 10 10 [] [1]
    { dependencyHash := [1], pythonVersion := [], expiryTimestamp := [50] } 5
    (by decide) rfl (by decide) rfl [goStr "requirements.txt"] (by decide)

/-- C10: an absent (empty) or unparsable expiry timestamp makes
cacheExpired true (absent leaves t at the first now, unparsable leaves t
at the Go zero time), so checkCache reports a miss whatever hash is
stored, matching or not. -/
theorem claim_C10 (parse : GoStr → Option Nat) (format : Nat → GoStr)
    (now1 now2 now3 : Nat) (hmono : now1 ≤ now2) (v : GoStr) (meta : LayerMeta)
    (hbad : meta.expiryTimestamp = [] ∨ parse meta.expiryTimestamp = none) :
    cacheExpired parse now1 now2 meta = true ∧
    ∀ h, checkCache parse format now1 now2 now3 v (.ok h) meta =
      .ok (false, some { dependencyHash := h, pythonVersion := v,
                         expiryTimestamp := format (now3 + expirationTime) }) := by
  have hexp : cacheExpired parse now1 now2 meta = true := by
    rcases hbad with hb | hb
    · simp only [cacheExpired, if_pos hb]
      simp only [Bool.not_eq_true', decide_eq_false_iff_not, Nat.not_lt]
      omega
    · by_cases hne : meta.expiryTimestamp = []
      · simp only [cacheExpired, if_pos hne]
        simp only [Bool.not_eq_true', decide_eq_false_iff_not, Nat.not_lt]
        omega
      · simp only [cacheExpired, if_neg hne, hb]
        simp only [Bool.not_eq_true', decide_eq_false_iff_not, Nat.not_lt]
        omega
  refine ⟨hexp, fun h => ?_⟩
  simp [checkCache, hexp]

/-- C10 witness: empty expiry metadata with a matching stored hash. -/
theorem claim_C10_witness :
    cacheExpired (fun _ => none) 3 7 { dependencyHash := [2], pythonVersion := [], expiryTimestamp := [] } = true ∧
    checkCache (fun _ => none) (fun _ => [8]) 3 7 7 [] (.ok [2])
        { dependencyHash := [2], pythonVersion := [], expiryTimestamp := [] } =
      .ok (false, some { dependencyHash := [2], pythonVersion := [],
                         expiryTimestamp := [8] }) :=
  ⟨(claim_C10 (fun _ => none) (fun _ => [8]) 3 7 7 (by decide) []
      { dependencyHash := [2], pythonVersion := [], expiryTimestamp := [] }
      (Or.inl rfl)).1,
   (claim_C10 (fun _ => none) (fun _ => [8]) 3 7 7 (by decide) []
      { dependencyHash := [2], pythonVersion := [], expiryTimestamp := [] }
      (Or.inl rfl)).2 [2]⟩

/-- ExecWithErr on a valid command whose process exits non-zero returns the
result together with the structured error built from the configured
attribution and message producer. -/
theorem ExecWithErr_fail (maxB : Nat) (run : Except GoStr ExecResult) (cmd : List GoStr)
    (opts : List ExecOption) (hcmd : cmd ≠ []) (hblank : ¬ ∀ a ∈ cmd, goTrimSpace a = [])
    (r : ExecResult) (hr : run = .ok r) (h0 : r.exitCode ≠ 0) :
    ExecWithErr maxB run cmd opts =
      (some r, some (execError (opts.foldl (applyOpt maxB) (defaultExecParams maxB cmd)).userFailure
        ((opts.foldl (applyOpt maxB) (defaultExecParams maxB cmd)).producer r))) := by
  subst hr
  simp [ExecWithErr, hcmd, hblank, h0]

/-- C5: a command exiting 99 yields a StatusInternal (runtime-caused) error
under default attribution; with WithUserFailureAttribution or
WithUserAttribution the error status is not StatusInternal; the returned
ExecResult and its exit code 99 are the same in all three cases. -/
theorem claim_C5 (maxB : Nat) (run : Except GoStr ExecResult) (r : ExecResult)
    (cmd : List GoStr) (hcmd : cmd ≠ []) (hblank : ¬ ∀ a ∈ cmd, goTrimSpace a = [])
    (hr : run = .ok r) (hexit : r.exitCode = 99) :
    (∃ e, ExecWithErr maxB run cmd [] = (some r, some e) ∧ e.status = Status.internal) ∧
    (∃ e, ExecWithErr maxB run cmd [ExecOption.withUserFailureAttribution] = (some r, some e) ∧
       e.status ≠ Status.internal) ∧
    (∃ e, ExecWithErr maxB run cmd [ExecOption.withUserAttribution] = (some r, some e) ∧
       e.status ≠ Status.internal) ∧
    r.exitCode = 99 := by
  have h0 : r.exitCode ≠ 0 := by omega
  refine ⟨⟨_, ExecWithErr_fail maxB run cmd [] hcmd hblank r hr h0, ?_⟩,
          ⟨_, ExecWithErr_fail maxB run cmd [ExecOption.withUserFailureAttribution]
                hcmd hblank r hr h0, ?_⟩,
          ⟨_, ExecWithErr_fail maxB run cmd [ExecOption.withUserAttribution]
                hcmd hblank r hr h0, ?_⟩, hexit⟩
  · rfl
  · simp [execError, Errorf, applyOpt, defaultExecParams]
  · simp [execError, Errorf, applyOpt, defaultExecParams]

/-- C5 witness: the test command exiting 99 with a six-byte budget. -/
theorem claim_C5_witness :
    (∃ e, ExecWithErr 6 (.ok { exitCode := 99, stdout := [], stderr := [], combined := [] })
        [goStr "/bin/bash", goStr "-c", goStr "exit 99"] [] =
      (some { exitCode := 99, stdout := [], stderr := [], combined := [] }, some e) ∧
      e.status = Status.internal) ∧
    (∃ e, ExecWithErr 6 (.ok { exitCode := 99, stdout := [], stderr := [], combined := [] })
        [goStr "/bin/bash", goStr "-c", goStr "exit 99"]
        [ExecOption.withUserFailureAttribution] =
      (some { exitCode := 99, stdout := [], stderr := [], combined := [] }, some e) ∧
      e.status ≠ Status.internal) ∧
    (∃ e, ExecWithErr 6 (.ok { exitCode := 99, stdout := [], stderr := [], combined := [] })
        [goStr "/bin/bash", goStr "-c", goStr "exit 99"]
        [ExecOption.withUserAttribution] =
      (some { exitCode := 99, stdout := [], stderr := [], combined := [] }, some e) ∧
      e.status ≠ Status.internal) ∧
    ({ exitCode := 99, stdout := [], stderr := [], combined := [] } : ExecResult).exitCode = 99 :=
  claim_C5 6 (.ok { exitCode := 99, stdout := [], stderr := [], combined := [] })
    { exitCode := 99, stdout := [], stderr := [], combined := [] }
    [goStr "/bin/bash", goStr "-c", goStr "exit 99"] (by decide) (by decide) rfl rfl

/-- C6 counterexample: under default attribution an empty command line is
rejected with a StatusInternal error, the runtime-caused kind, not the
caller-caused kind (StatusUnknown), exactly as TestExecWithErr asserts;
the claim calls this rejection caller-caused. -/
theorem claim_C6_cex :
    ∃ e, (ExecWithErr 6 (.error (goStr "spawn")) [] []).2 = some e ∧
      e.status = Status.internal ∧ Status.internal ≠ Status.unknown ∧
      (ExecWithErr 6 (.error (goStr "spawn")) [] []).1 = none := by
  exact ⟨execError false (goStr "no command provided"), rfl, rfl, by decide, rfl⟩

/-- C6 (amended): an empty command line (nil, empty token list, or
all-blank arguments) is rejected before spawning: no ExecResult is
returned and the error carries the fixed rejection message; its
attribution follows the configured attribution mode like every other
executor failure, so it is runtime-caused (StatusInternal) under the
default mode and caller-caused only when user failure attribution is
enabled. -/
theorem claim_C6 (maxB : Nat) (run : Except GoStr ExecResult) (cmd : List GoStr)
    (opts : List ExecOption)
    (hempty : cmd = [] ∨ ∀ a ∈ cmd, goTrimSpace a = []) :
    (ExecWithErr maxB run cmd opts).1 = none ∧
    ∃ e, (ExecWithErr maxB run cmd opts).2 = some e ∧
      e.status = (if (opts.foldl (applyOpt maxB) (defaultExecParams maxB cmd)).userFailure
                  then Status.unknown else Status.internal) ∧
      (e.message = goStr "no command provided" ∨
       e.message = goStr "empty command provided") := by
  by_cases hc : cmd = []
  · subst hc
    exact ⟨rfl, execError _ (goStr "no command provided"), rfl, rfl, Or.inl rfl⟩
  · have hall : ∀ a ∈ cmd, goTrimSpace a = [] := hempty.resolve_left hc
    have hgoal : ExecWithErr maxB run cmd opts =
        (none, some (execError
          (opts.foldl (applyOpt maxB) (defaultExecParams maxB cmd)).userFailure
          (goStr "empty command provided"))) := by
      simp only [ExecWithErr]
      rw [if_neg hc, if_pos hall]
    rw [hgoal]
    exact ⟨rfl, _, rfl, rfl, Or.inr rfl⟩

/-- C6 witness: a single all-blank argument with user attribution gives a
caller-caused rejection; the same command line by default gives the
runtime-caused one. -/
theorem claim_C6_witness :
    ((ExecWithErr 6 (.error (goStr "spawn")) [goStr " "]
        [ExecOption.withUserAttribution]).1 = none ∧
     ∃ e, (ExecWithErr 6 (.error (goStr "spawn")) [goStr " "]
        [ExecOption.withUserAttribution]).2 = some e ∧
       e.status = Status.unknown ∧
       (e.message = goStr "no command provided" ∨
        e.message = goStr "empty command provided")) ∧
    ((ExecWithErr 6 (.error (goStr "spawn")) [goStr " "] []).1 = none ∧
     ∃ e, (ExecWithErr 6 (.error (goStr "spawn")) [goStr " "] []).2 = some e ∧
       e.status = Status.internal ∧
       (e.message = goStr "no command provided" ∨
        e.message = goStr "empty command provided")) :=
  ⟨claim_C6 6 (.error (goStr "spawn")) [goStr " "] [ExecOption.withUserAttribution]
     (Or.inr (by decide)),
   claim_C6 6 (.error (goStr "spawn")) [goStr " "] [] (Or.inr (by decide))⟩

/-- C7: saveSuccessOutput over an existing parsed document returns it with
every prior stat entry unchanged and in order, followed by exactly one
new entry for the current buildpack with its total and user-attributed
millisecond durations, appended last. -/
theorem claim_C7 (dir : GoStr) (hdir : dir ≠ []) (bo : builderOutput) (info : BuildpackInfo)
    (durMs userMs : Nat) :
    saveSuccessOutputRun dir true true (some bo) true true true info durMs userMs =
      .ok { warnLog := [],
            written := some { error := bo.error,
                              stats := bo.stats ++
                                [{ buildpackID := info.id, buildpackVersion := info.version,
                                   durationMs := durMs, userDurationMs := userMs }] } } := by
  simp [saveSuccessOutputRun, hdir]

/-- C7 witness: the two-entry document of TestSaveBuilderSuccessOutput. -/
theorem claim_C7_witness :
    saveSuccessOutputRun (goStr "d") true true
        (some { error := emptyBuilderOutput.error,
                stats := [{ buildpackID := goStr "bp1", buildpackVersion := goStr "v1",
                            durationMs := 1000, userDurationMs := 100 },
                          { buildpackID := goStr "bp2", buildpackVersion := goStr "v2",
                            durationMs := 2000, userDurationMs := 200 }] })
        true true true { id := goStr "my-id", version := goStr "my-version" } 30000 5000 =
      .ok { warnLog := [],
            written := some { error := emptyBuilderOutput.error,
                              stats := [{ buildpackID := goStr "bp1", buildpackVersion := goStr "v1",
                                          durationMs := 1000, userDurationMs := 100 },
                                        { buildpackID := goStr "bp2", buildpackVersion := goStr "v2",
                                          durationMs := 2000, userDurationMs := 200 },
                                        { buildpackID := goStr "my-id",
                                          buildpackVersion := goStr "my-version",
                                          durationMs := 30000, userDurationMs := 5000 }] } } :=
  claim_C7 (goStr "d") (by decide)
    { error := emptyBuilderOutput.error,
      stats := [{ buildpackID := goStr "bp1", buildpackVersion := goStr "v1",
                  durationMs := 1000, userDurationMs := 100 },
                { buildpackID := goStr "bp2", buildpackVersion := goStr "v2",
                  durationMs := 2000, userDurationMs := 200 }] }
    { id := goStr "my-id", version := goStr "my-version" } 30000 5000

/-- C8: neither saveErrorOutput nor saveSuccessOutput ever escalates a
persistence failure: whatever combination of marshal, directory
creation, write or rename failures occurs, both return normally (never
an error), and a failing step makes them log a warning and write
nothing, leaving the main outcome unaffected. -/
theorem claim_C8 (dir : GoStr) (m k w v : Bool) (info : BuildpackInfo) (maxB : Nat) (be : Error)
    (fe ro : Bool) (parsed : Option builderOutput) (durMs userMs : Nat) :
    (∃ eff, saveErrorOutputRun dir m k w v info maxB be = .ok eff) ∧
    (∃ eff, saveSuccessOutputRun dir fe ro parsed m k w info durMs userMs = .ok eff) ∧
    (dir ≠ [] → (m = false ∨ k = false ∨ w = false ∨ v = false) →
      ∃ eff, saveErrorOutputRun dir m k w v info maxB be = .ok eff ∧
        eff.written = none ∧ eff.warnLog ≠ []) ∧
    (dir ≠ [] → fe = false → (m = false ∨ k = false ∨ w = false) →
      ∃ eff, saveSuccessOutputRun dir fe ro parsed m k w info durMs userMs = .ok eff ∧
        eff.written = none ∧ eff.warnLog ≠ []) := by
  by_cases hd : dir = []
  · refine ⟨⟨{ warnLog := [], written := none }, by simp [saveErrorOutputRun, hd]⟩,
      ⟨{ warnLog := [], written := none }, by simp [saveSuccessOutputRun, hd]⟩,
      fun hne => absurd hd hne, fun hne => absurd hd hne⟩
  · cases m <;> cases k <;> cases w <;> cases v <;> cases fe <;> cases ro <;> cases parsed <;>
      simp [saveErrorOutputRun, saveSuccessOutputRun, hd, goStr]

/-- C8 witness: a marshalling failure on both paths with the directory
set. -/
theorem claim_C8_witness :
    (∃ eff, saveErrorOutputRun (goStr "d") false true true true
        { id := goStr "id", version := goStr "version" } 8
        (Errorf .internal (goStr "boom")) = .ok eff ∧
      eff.written = none ∧ eff.warnLog ≠ []) ∧
    (∃ eff, saveSuccessOutputRun (goStr "d") false true none false true true
        { id := goStr "id", version := goStr "version" } 30000 5000 = .ok eff ∧
      eff.written = none ∧ eff.warnLog ≠ []) :=
  ⟨(claim_C8 (goStr "d") false true true true
      { id := goStr "id", version := goStr "version" } 8
      (Errorf .internal (goStr "boom")) false true none 30000 5000).2.2.1
      (by decide) (Or.inl rfl),
   (claim_C8 (goStr "d") false true true true
      { id := goStr "id", version := goStr "version" } 8
      (Errorf .internal (goStr "boom")) false true none 30000 5000).2.2.2
      (by decide) rfl (Or.inl rfl)⟩

/-- One step of either writer preserves the race invariant. -/
theorem wStep_inv (c1 c2 : List GoStr) (s : WSys) (h : wInv c1 c2 s) (who : Bool) :
    wInv c1 c2 (wStep s who) := by
  obtain ⟨rem1, ren1, t1, rem2, ren2, t2, out⟩ := s
  obtain ⟨h1, h2, hout, hsome⟩ := h
  simp only [wInv, wStep] at h1 h2 hout hsome ⊢
  cases who
  · cases rem2 with
    | nil =>
      cases ren2 with
      | false =>
        simp only [List.flatten_nil, List.append_nil] at h2
        exact ⟨h1, by simp [h2], Or.inr (Or.inr (by simp [h2])), by simp⟩
      | true => exact ⟨h1, h2, hout, hsome⟩
    | cons c cs =>
      refine ⟨h1, ?_, hout, hsome⟩
      simpa [List.append_assoc] using h2
  · cases rem1 with
    | nil =>
      cases ren1 with
      | false =>
        simp only [List.flatten_nil, List.append_nil] at h1
        exact ⟨by simp [h1], h2, Or.inr (Or.inl (by simp [h1])), by simp⟩
      | true => exact ⟨h1, h2, hout, hsome⟩
    | cons c cs =>
      refine ⟨?_, h2, hout, hsome⟩
      simpa [List.append_assoc] using h1

/-- Running any schedule preserves the race invariant. -/
theorem wRun_inv (c1 c2 : List GoStr) (sched : List Bool) (s : WSys) (h : wInv c1 c2 s) :
    wInv c1 c2 (wRun s sched) := by
  induction sched generalizing s with
  | nil => exact h
  | cons b bs ih => exact ih (wStep s b) (wStep_inv c1 c2 s h b)

/-- C9: for every interleaving of two writers that each write their whole
document to their own temporary file and then atomically rename it over
the canonical path, once at least one writer has renamed, the canonical
file holds exactly one writer's complete content, never an interleaved
mixture. -/
theorem claim_C9 (chunks1 chunks2 : List GoStr) (sched : List Bool)
    (hdone : (wRun (wInit chunks1 chunks2) sched).ren1 = true ∨
             (wRun (wInit chunks1 chunks2) sched).ren2 = true) :
    (wRun (wInit chunks1 chunks2) sched).out = some chunks1.flatten ∨
    (wRun (wInit chunks1 chunks2) sched).out = some chunks2.flatten := by
  have hinit : wInv chunks1 chunks2 (wInit chunks1 chunks2) := by
    refine ⟨by simp [wInit], by simp [wInit], Or.inl rfl, ?_⟩
    rintro (h | h) <;> simp [wInit] at h
  obtain ⟨h1, h2, hout, hsome⟩ := wRun_inv chunks1 chunks2 sched _ hinit
  rcases hout with h | h | h
  · exact absurd h (hsome hdone)
  · exact Or.inl h
  · exact Or.inr h

/-- C9 witness: a five-step interleaving in which both writers complete. -/
theorem claim_C9_witness :
    (wRun (wInit [[1], [2]] [[3]]) [true, false, true, true, false]).out = some [1, 2] ∨
    (wRun (wInit [[1], [2]] [[3]]) [true, false, true, true, false]).out = some [3] :=
  claim_C9 [[1], [2]] [[3]] [true, false, true, true, false] (by decide)

/-- warningsSize of a nonempty list is one more than its summed cost. -/
theorem warningsSize_eq_cost (ws : List GoStr) (h : ws ≠ []) :
    warningsSize ws = 1 + warningsCost ws := by
  cases ws with
  | nil => exact absurd rfl h
  | cons a t => rfl

/-- warningsCost distributes over append. -/
theorem warningsCost_append (a b : List GoStr) :
    warningsCost (a ++ b) = warningsCost a + warningsCost b := by
  simp [warningsCost]

/-- Appending one warning grows the serialized size by its length plus two
bytes of quotes, plus a separator when the list was nonempty. -/
theorem warningsSize_append_one (acc : List GoStr) (w : GoStr) :
    warningsSize (acc ++ [w]) = warningsSize acc + w.length + (if acc = [] then 2 else 3) := by
  cases acc with
  | nil =>
    simp only [warningsSize, warningsCost, List.nil_append, List.map_cons, List.map_nil,
      List.sum_cons, List.sum_nil, if_pos]
    omega
  | cons a t =>
    have h1 : warningsCost [w] = w.length + 3 := by simp [warningsCost]
    rw [warningsSize_eq_cost _ (by simp), warningsSize_eq_cost _ (by simp),
      warningsCost_append, h1, if_neg (List.cons_ne_nil a t)]
    omega

/-- appendWarningsAux appends a prefix of whole warnings while each keeps
the cumulative serialized size within the budget; at the first warning
that does not fit, the room left after the per-warning and ellipsis
overhead is exactly B minus the serialized size so far minus six, and
that warning is truncated to fill exactly that room, ellipsis appended,
when at least one character remains, or dropped entirely when less than
one character remains; nothing later is processed. -/
theorem appendWarningsAux_spec (B : Nat) (ws : List GoStr) : ∀ acc, ∃ k,
    (k = 0 ∨ warningsSize (acc ++ ws.take k) ≤ B) ∧
    ((k = ws.length ∧ appendWarningsAux B acc ws = acc ++ ws.take k) ∨
     (∃ w, ws[k]? = some w ∧ B < warningsSize (acc ++ (ws.take k ++ [w])) ∧
       1 ≤ B - warningsSize (acc ++ ws.take k) - 6 ∧
       (B - warningsSize (acc ++ ws.take k) - 6) + 3 < w.length ∧
       appendWarningsAux B acc ws = acc ++ (ws.take k ++
         [w.take (B - warningsSize (acc ++ ws.take k) - 6) ++ ellipsis]) ∧
       warningsSize (acc ++ (ws.take k ++
         [w.take (B - warningsSize (acc ++ ws.take k) - 6) ++ ellipsis])) ≤ B) ∨
     (∃ w, ws[k]? = some w ∧ B < warningsSize (acc ++ (ws.take k ++ [w])) ∧
       B - warningsSize (acc ++ ws.take k) - 6 < 1 ∧
       appendWarningsAux B acc ws = acc ++ ws.take k)) := by
  induction ws with
  | nil =>
    intro acc
    exact ⟨0, Or.inl rfl, Or.inl ⟨rfl, by simp [appendWarningsAux]⟩⟩
  | cons w rest ih =>
    intro acc
    by_cases hfit : warningsSize (acc ++ [w]) ≤ B
    · obtain ⟨k', hsz, hcase⟩ := ih (acc ++ [w])
      have hstep : appendWarningsAux B acc (w :: rest) =
          appendWarningsAux B (acc ++ [w]) rest := by
        simp [appendWarningsAux, hfit]
      refine ⟨k' + 1, ?_, ?_⟩
      · refine Or.inr ?_
        rcases hsz with h0 | hsz
        · subst h0
          simpa [List.take_succ_cons] using hfit
        · simpa [List.take_succ_cons, List.append_assoc] using hsz
      · rcases hcase with ⟨hlen, heq⟩ |
          ⟨w', hget, hgt, hroom, hwlen, heq, hble⟩ | ⟨w', hget, hgt, hroom, heq⟩
        · refine Or.inl ⟨by simp [hlen], ?_⟩
          rw [hstep, heq, List.take_succ_cons]
          simp [List.append_assoc]
        · refine Or.inr (Or.inl ⟨w', by simpa using hget, ?_, ?_, ?_, ?_, ?_⟩)
          · simpa [List.take_succ_cons, List.append_assoc] using hgt
          · simpa [List.take_succ_cons, List.append_assoc] using hroom
          · simpa [List.take_succ_cons, List.append_assoc] using hwlen
          · rw [hstep, heq, List.take_succ_cons]
            simp [List.append_assoc]
          · simpa [List.take_succ_cons, List.append_assoc] using hble
        · refine Or.inr (Or.inr ⟨w', by simpa using hget, ?_, ?_, ?_⟩)
          · simpa [List.take_succ_cons, List.append_assoc] using hgt
          · simpa [List.take_succ_cons, List.append_assoc] using hroom
          · rw [hstep, heq, List.take_succ_cons]
            simp [List.append_assoc]
    · have hgt : B < warningsSize (acc ++ [w]) := Nat.lt_of_not_le hfit
      have hone := warningsSize_append_one acc w
      by_cases hroom : 1 ≤ B - warningsSize acc - 6
      · have hwlen : (B - warningsSize acc - 6) + 3 < w.length := by
          by_cases hacc : acc = []
          · subst hacc
            rw [if_pos rfl] at hone
            have h2 : warningsSize ([] : List GoStr) = 2 := rfl
            omega
          · rw [if_neg hacc] at hone
            omega
        have htrunc : (w.take (B - warningsSize acc - 6) ++ ellipsis).length =
            (B - warningsSize acc - 6) + 3 := by
          simp only [List.length_append, List.length_take, ellipsis_length]
          omega
        have hble : warningsSize (acc ++ [w.take (B - warningsSize acc - 6) ++ ellipsis]) ≤ B := by
          have hone2 := warningsSize_append_one acc
            (w.take (B - warningsSize acc - 6) ++ ellipsis)
          rw [htrunc] at hone2
          by_cases hacc : acc = []
          · subst hacc
            rw [if_pos rfl] at hone2
            have h2 : warningsSize ([] : List GoStr) = 2 := rfl
            omega
          · rw [if_neg hacc] at hone2
            omega
        refine ⟨0, Or.inl rfl, Or.inr (Or.inl ⟨w, by simp, ?_, ?_, ?_, ?_, ?_⟩)⟩
        · simpa using hgt
        · simpa using hroom
        · simpa using hwlen
        · simp [appendWarningsAux, hfit, hroom]
        · simpa using hble
      · refine ⟨0, Or.inl rfl, Or.inr (Or.inr ⟨w, by simp, ?_, ?_, ?_⟩)⟩
        · simpa using hgt
        · simp only [List.take_zero, List.append_nil]
          omega
        · simp [appendWarningsAux, hfit, hroom]

/-- C3: the persisted warning list is the existing warnings followed by a
prefix of the accumulated warnings appended whole while the cumulative
serialized size stays within the budget, and then: either every warning
fitted, or the first warning that does not fit is truncated to fill
exactly the remaining room (the budget minus the serialized size so far
minus the six bytes of quoting and separator overhead), with a trailing
ellipsis, the result within the budget and at least one original
character kept, exactly when at least one character remains after the
truncation overhead, and is dropped entirely when less than one
character remains; in either stopping case no later warning is
processed. -/
theorem claim_C3 (B : Nat) (existing ws : List GoStr) : ∃ k,
    (k = 0 ∨ warningsSize (existing ++ ws.take k) ≤ B) ∧
    ((k = ws.length ∧ saveSuccessWarnings B existing ws = existing ++ ws.take k) ∨
     (∃ w, ws[k]? = some w ∧ B < warningsSize (existing ++ (ws.take k ++ [w])) ∧
       1 ≤ B - warningsSize (existing ++ ws.take k) - 6 ∧
       (B - warningsSize (existing ++ ws.take k) - 6) + 3 < w.length ∧
       saveSuccessWarnings B existing ws = existing ++ (ws.take k ++
         [w.take (B - warningsSize (existing ++ ws.take k) - 6) ++ ellipsis]) ∧
       warningsSize (existing ++ (ws.take k ++
         [w.take (B - warningsSize (existing ++ ws.take k) - 6) ++ ellipsis])) ≤ B) ∨
     (∃ w, ws[k]? = some w ∧ B < warningsSize (existing ++ (ws.take k ++ [w])) ∧
       B - warningsSize (existing ++ ws.take k) - 6 < 1 ∧
       saveSuccessWarnings B existing ws = existing ++ ws.take k)) :=
  appendWarningsAux_spec B ws existing

end Buildpacks
